import Mathlib

/-!
Shallow embedding of the `llm_tool_harness` package: the tool registry
(`tool.py`), the tool-result formatting helpers (`utils.py`), the agent
conversation loop (`agent.py`, `LLMAgent.process_message` and
`LLMAgent._add_message`), and the response-direction normalization of the
Anthropic provider adapter (`providers/anthropic.py`,
`AnthropicProvider.chat_completion`).

Modelling conventions:
* `Input` is an abstract type standing for the Python `input` mapping that a
  tool call carries (the agent never inspects it, it only forwards it to the
  tool's implementation; the empty dict default of `.get("input", {})` is one
  of its values).
* Python exceptions raised by a tool implementation are modelled with
  `Except String`, the error string being `str(e)`; a tool's successful
  output is modelled directly as its stringified form `str(tool_output)`.
* Python truthiness of `Optional[str]` values (`x or default`,
  `if not tool_name`) is modelled by `pyOrStr` / `truthyStr`: both `None`
  and the empty string are falsy.
* Python truthiness of `Optional[List]` (`if not tool_calls`) is modelled by
  `pyFalsyOptList`: both `None` and `[]` are falsy.
* The LLM backend is the environment: it is modelled as a function from the
  accumulated message history to the adapter's return triple
  (`text_response`, `tool_calls`, `raw_assistant_message`).  The fixed
  arguments of the call (tool catalog, tool choice, system prompt) are
  constant within one turn and absorbed into that function.
* The f-string rendering of a whole tool-call dict
  (`f"Error: Malformed tool call from LLM: {tool_call}"`) is modelled by an
  environment-supplied function `rc : ToolCall Input → String`.
* The `while current_iteration < self.max_tool_iterations` loop with
  `current_iteration` starting at 0 and incremented at the top of each pass
  runs at most `max(max_tool_iterations, 0)` passes; it is embedded as
  structural recursion on that fuel, with one adapter call per pass counted
  in the result.
-/

/-- Content blocks of a message, after `agent.py` / `anthropic.py`:
`{"type": "text", ...}`, `{"type": "tool_use", ...}`,
`{"type": "tool_result", ...}`. -/
inductive CBlock (Input : Type) where
  | text (t : String)
  | toolUse (id : String) (name : String) (input : Input)
  | toolResult (tool_use_id : String) (content : List (CBlock Input)) (is_error : Bool)

/-- The `content` argument accepted by `LLMAgent._add_message`: a plain
string, a list of already-formatted content blocks, or a single content-block
dict (the internal tool-result format). -/
inductive PyContent (Input : Type) where
  | str (s : String)
  | blocks (l : List (CBlock Input))
  | block (b : CBlock Input)

/-- A message of the conversation history (`providers/base.py`:
`Message = Dict[str, Any]` with a `role` and a `content`). -/
structure Message (Input : Type) where
  role : String
  content : PyContent Input

/-- A tool call as the agent consumes it (`agent.py` uses
`tool_call.get("name")` / `.get("id")` / `.get("input", {})`, so `name` and
`id` may be absent). -/
structure ToolCall (Input : Type) where
  name : Option String
  id : Option String
  input : Input

/-- A registered tool (`tool.py`, class `Tool`): `execute` models
`str(self.implementation(**kwargs))`, with `Except.error` carrying `str(e)`
of a raised exception. -/
structure Tool (Input : Type) where
  name : String
  description : String
  execute : Input → Except String String

/-- The registry's `self._tools` dict, as an insertion-ordered association
list (Python dicts preserve insertion order). -/
abbrev Registry (Input : Type) : Type := List (String × Tool Input)

/-- `ToolRegistry.get_tool`: `self._tools.get(name)`. -/
def get_tool {Input : Type} (r : Registry Input) (name : String) : Option (Tool Input) :=
  match r with
  | [] => none
  | (n, t) :: rest => if n = name then some t else get_tool rest name

/-- `ToolRegistry.register_tool`: raises
`ValueError(f"Tool with name '{tool.name}' already registered.")` when the
name is present, otherwise inserts at the end.  The raise is modelled as
`Except.error` carrying the message. -/
def register_tool {Input : Type} (r : Registry Input) (t : Tool Input) :
    Except String (Registry Input) :=
  if (r.map Prod.fst).contains t.name then
    Except.error ("Tool with name '" ++ t.name ++ "' already registered.")
  else
    Except.ok (r ++ [(t.name, t)])

/-- The registry state after a call to `register_tool`: in Python a raise
leaves `self._tools` untouched, so on `Except.error` the state is the old
registry. -/
def registryAfterRegister {Input : Type} (r : Registry Input) (t : Tool Input) :
    Registry Input :=
  match register_tool r t with
  | Except.ok r2 => r2
  | Except.error _ => r

/-- Python `x or default` on an `Optional[str]`: `None` and `""` are falsy. -/
def pyOrStr (o : Option String) (d : String) : String :=
  match o with
  | none => d
  | some s => if s = "" then d else s

/-- Python truthiness of an `Optional[str]`: `None` and `""` are falsy. -/
def truthyStr (o : Option String) : Bool :=
  match o with
  | none => false
  | some s => !(s = "")

/-- Python falsiness of an `Optional[List]` (`if not tool_calls`): `None`
and the empty list are falsy. -/
def pyFalsyOptList {α : Type} (o : Option (List α)) : Bool :=
  match o with
  | none => true
  | some [] => true
  | some (_ :: _) => false

/-- `utils.format_user_text_message`: wraps text into a single text block. -/
def format_user_text_message {Input : Type} (text : String) : List (CBlock Input) :=
  [CBlock.text text]

/-- `utils.format_tool_result_message`, string-output branch (the agent only
ever passes strings): a `tool_result` dict whose content is one text block. -/
def format_tool_result_message {Input : Type} (tool_use_id : String) (output : String)
    (is_error : Bool) : CBlock Input :=
  CBlock.toolResult tool_use_id [CBlock.text output] is_error

/-- `LLMAgent._add_message`, following the Python dispatch on the shape of
`content`: a string for role user/assistant becomes one text block (other
roles fall through to the raw-append fallback); a list is appended as the
message content for any role; a dict whose `type` is `tool_result` is wrapped
in a singleton list under role `"user"` regardless of the `role` argument;
any other dict falls through to the fallback. -/
def _add_message {Input : Type} (msgs : List (Message Input)) (role : String)
    (content : PyContent Input) : List (Message Input) :=
  match content with
  | PyContent.str s =>
    if role = "user" ∨ role = "assistant" then
      msgs ++ [⟨role, PyContent.blocks [CBlock.text s]⟩]
    else
      msgs ++ [⟨role, PyContent.str s⟩]
  | PyContent.blocks l =>
    msgs ++ [⟨role, PyContent.blocks l⟩]
  | PyContent.block b =>
    match b with
    | CBlock.toolResult tuid c e =>
      msgs ++ [⟨"user", PyContent.blocks [CBlock.toolResult tuid c e]⟩]
    | other => msgs ++ [⟨role, PyContent.block other⟩]

/-- The adapter's return triple
(`text_response`, `tool_calls`, `raw_assistant_message`) from
`LLMProvider.chat_completion`. -/
structure LLMResponse (Input : Type) where
  text : Option String
  toolCalls : Option (List (ToolCall Input))
  raw : Option (Message Input)

/-- `agent.py` body of the per-call dispatch: handling of one `tool_call`
from the response (lines 104-153).  Malformed calls (falsy name or id) give
an error result under `tool_id or "unknown_id"`; an unregistered name gives
the not-found error result; a registered tool is executed, a raised
exception being recovered into an error result. -/
def execCall {Input : Type} (reg : Registry Input) (rc : ToolCall Input → String)
    (tc : ToolCall Input) : CBlock Input :=
  if !truthyStr tc.name ∨ !truthyStr tc.id then
    format_tool_result_message (pyOrStr tc.id "unknown_id")
      ("Error: Malformed tool call from LLM: " ++ rc tc) true
  else
    let tool_name := tc.name.getD ""
    let tool_id := tc.id.getD ""
    match get_tool reg tool_name with
    | some tool =>
      match tool.execute tc.input with
      | Except.ok out => format_tool_result_message tool_id out false
      | Except.error e =>
        format_tool_result_message tool_id
          ("Error executing tool '" ++ tool_name ++ "': " ++ e) true
    | none =>
      format_tool_result_message tool_id
        ("Error: Tool '" ++ tool_name ++ "' not found.") true

/-- `agent.py` lines 158-161: each collected tool result is appended to the
history in order, one `_add_message(role="user", content=res)` per result. -/
def addToolResults {Input : Type} (msgs : List (Message Input))
    (results : List (CBlock Input)) : List (Message Input) :=
  results.foldl (fun acc res => _add_message acc "user" (PyContent.block res)) msgs

/-- `agent.py` line 91-95: the raw assistant message, when returned (a
nonempty dict is truthy), is appended to the history verbatim. -/
def appendRaw {Input : Type} (msgs : List (Message Input))
    (raw : Option (Message Input)) : List (Message Input) :=
  match raw with
  | some m => msgs ++ [m]
  | none => msgs

/-- `agent.py` line 99: the fallback returned when the response carries no
tool calls and no (nonempty) text. -/
def noResponseSentinel : String := "No response from assistant."

/-- `agent.py` line 170: the fixed message returned when the loop exits via
the iteration cap. -/
def maxIterSentinel : String :=
  "Agent reached maximum tool iterations. Returning last text response or error."

/-- The `while current_iteration < self.max_tool_iterations` loop of
`process_message` (lines 65-167), on fuel = number of remaining passes.
Returns (`some text` for an in-loop return / `none` for exit via the cap,
final history, number of adapter calls made). -/
def runLoop {Input : Type} (llm : List (Message Input) → LLMResponse Input)
    (reg : Registry Input) (rc : ToolCall Input → String) :
    Nat → List (Message Input) → Nat → Option String × List (Message Input) × Nat
  | 0, msgs, calls => (none, msgs, calls)
  | fuel + 1, msgs, calls =>
    let resp := llm msgs
    let msgs1 := appendRaw msgs resp.raw
    if pyFalsyOptList resp.toolCalls then
      (some (pyOrStr resp.text noResponseSentinel), msgs1, calls + 1)
    else
      let results := (resp.toolCalls.getD []).map (execCall reg rc)
      runLoop llm reg rc fuel (addToolResults msgs1 results) (calls + 1)

/-- The outcome of one `process_message` turn: the returned string, the final
`self.messages` history, and how many adapter calls were made. -/
structure TurnResult (Input : Type) where
  response : String
  messages : List (Message Input)
  adapterCalls : Nat

/-- `LLMAgent.process_message`: appends the user's text message, runs the
bounded loop, and returns the cap sentinel when the loop exits without a
tool-free response.  `maxIter` is `self.max_tool_iterations` (a Python int,
possibly non-positive); the loop body runs at most `max(maxIter, 0)` times. -/
def process_message {Input : Type} (maxIter : Int)
    (llm : List (Message Input) → LLMResponse Input) (reg : Registry Input)
    (rc : ToolCall Input → String) (msgs : List (Message Input))
    (user_input : String) : TurnResult Input :=
  let msgs0 := _add_message msgs "user" (PyContent.blocks (format_user_text_message user_input))
  match runLoop llm reg rc maxIter.toNat msgs0 0 with
  | (some t, m, c) => ⟨t, m, c⟩
  | (none, m, c) => ⟨maxIterSentinel, m, c⟩

/-- A raw content block of the backend's response
(`anthropic.py`, `response.content`): `text` or `tool_use`. -/
inductive RawBlock (Input : Type) where
  | text (t : String)
  | tool_use (id : String) (name : String) (input : Input)

/-- `anthropic.py` lines 117-126: `text_response` accumulates the `text`
fields of all text blocks, in order. -/
def concatTexts {Input : Type} : List (RawBlock Input) → String
  | [] => ""
  | RawBlock.text t :: rest => t ++ concatTexts rest
  | RawBlock.tool_use _ _ _ :: rest => concatTexts rest

/-- `anthropic.py` lines 127-135: every `tool_use` block becomes a
`ToolCall` entry with the backend-assigned `id`, `name`, `input`, in order. -/
def extractToolCalls {Input : Type} : List (RawBlock Input) → List (ToolCall Input)
  | [] => []
  | RawBlock.tool_use i n inp :: rest => ⟨some n, some i, inp⟩ :: extractToolCalls rest
  | RawBlock.text _ :: rest => extractToolCalls rest

/-- `content_block.model_dump()`: the raw block saved verbatim into
`assistant_response_content`. -/
def rawToCBlock {Input : Type} : RawBlock Input → CBlock Input
  | RawBlock.text t => CBlock.text t
  | RawBlock.tool_use i n inp => CBlock.toolUse i n inp

/-- The response direction of `AnthropicProvider.chat_completion`
(lines 117-142): text blocks concatenated (`text_response or None`), tool-use
blocks extracted (`tool_calls or None`), and the full raw content preserved
as an assistant message. -/
def chat_completion_response {Input : Type} (blocks : List (RawBlock Input)) :
    LLMResponse Input :=
  let t := concatTexts blocks
  let tcs := extractToolCalls blocks
  { text := if t = "" then none else some t
    toolCalls := if tcs.isEmpty then none else some tcs
    raw := some ⟨"assistant", PyContent.blocks (blocks.map rawToCBlock)⟩ }

/-- Whether a content block is a `tool_result` dict (the `content.get("type")
== "tool_result"` test of `_add_message`). -/
def isToolResult {Input : Type} : CBlock Input → Bool
  | CBlock.toolResult _ _ _ => true
  | _ => false

/-- The `tool_use_id` field of a tool-result block (`""` on other blocks). -/
def resultTuid {Input : Type} : CBlock Input → String
  | CBlock.toolResult t _ _ => t
  | _ => ""

/-- The initial history of a turn: the user's input appended as a
text-content user message (`process_message` line 63). -/
def initialHistory {Input : Type} (msgs : List (Message Input)) (user_input : String) :
    List (Message Input) :=
  _add_message msgs "user" (PyContent.blocks (format_user_text_message user_input))

theorem add_message_of_toolResult {Input : Type} (msgs : List (Message Input))
    (role : String) (b : CBlock Input) (hb : isToolResult b = true) :
    _add_message msgs role (PyContent.block b) =
      msgs ++ [⟨"user", PyContent.blocks [b]⟩] := by
  cases b with
  | toolResult t c e => rfl
  | text t => simp [isToolResult] at hb
  | toolUse i n inp => simp [isToolResult] at hb

theorem execCall_isToolResult {Input : Type} (reg : Registry Input)
    (rc : ToolCall Input → String) (tc : ToolCall Input) :
    isToolResult (execCall reg rc tc) = true := by
  unfold execCall format_tool_result_message
  split
  · rfl
  · dsimp only
    split
    · split <;> rfl
    · rfl

theorem execCall_resultTuid {Input : Type} (reg : Registry Input)
    (rc : ToolCall Input → String) (tc : ToolCall Input) :
    resultTuid (execCall reg rc tc) = pyOrStr tc.id "unknown_id" := by
  unfold execCall format_tool_result_message
  split
  · rfl
  · rename_i hcond
    dsimp only
    have hid : truthyStr tc.id = true := by
      rcases h1 : truthyStr tc.name with _ | _ <;>
        rcases h2 : truthyStr tc.id with _ | _ <;>
        simp [h1, h2] at hcond ⊢
    cases hoid : tc.id with
    | none => rw [hoid] at hid; simp [truthyStr] at hid
    | some s =>
      rw [hoid] at hid
      have hs : ¬ s = "" := by
        by_contra hc
        simp [truthyStr, hc] at hid
      split
      · split <;> simp [resultTuid, pyOrStr, hoid, hs]
      · simp [resultTuid, pyOrStr, hoid, hs]

theorem addToolResults_eq {Input : Type} (results : List (CBlock Input))
    (msgs : List (Message Input)) (hall : ∀ b ∈ results, isToolResult b = true) :
    addToolResults msgs results =
      msgs ++ results.map (fun b => ⟨"user", PyContent.blocks [b]⟩) := by
  induction results generalizing msgs with
  | nil => simp [addToolResults]
  | cons b rest ih =>
    have hb : isToolResult b = true := hall b (List.mem_cons_self b rest)
    have hrest : ∀ x ∈ rest, isToolResult x = true :=
      fun x hx => hall x (List.mem_cons_of_mem b hx)
    simp only [addToolResults, List.foldl_cons] at *
    rw [add_message_of_toolResult msgs "user" b hb, ih _ hrest]
    simp

/-- One loop pass when the response carries no tool calls (Python-falsy
`tool_calls`): the raw assistant message is appended and the text (or the
no-response fallback) is returned after this single adapter call. -/
theorem runLoop_step_notools {Input : Type} (llm : List (Message Input) → LLMResponse Input)
    (reg : Registry Input) (rc : ToolCall Input → String) (fuel : Nat)
    (msgs : List (Message Input)) (calls : Nat)
    (ht : pyFalsyOptList (llm msgs).toolCalls = true) :
    runLoop llm reg rc (fuel + 1) msgs calls =
      (some (pyOrStr (llm msgs).text noResponseSentinel),
        appendRaw msgs (llm msgs).raw, calls + 1) := by
  simp only [runLoop, ht, if_true]

/-- One loop pass when the response carries a nonempty list of tool calls:
the raw assistant message is appended, then one user-role tool-result
message per call, in order, and the loop proceeds to the next adapter
call. -/
theorem runLoop_step_tools {Input : Type} (llm : List (Message Input) → LLMResponse Input)
    (reg : Registry Input) (rc : ToolCall Input → String) (fuel : Nat)
    (msgs : List (Message Input)) (calls : Nat) (l : List (ToolCall Input))
    (ht : (llm msgs).toolCalls = some l) (hne : l ≠ []) :
    runLoop llm reg rc (fuel + 1) msgs calls =
      runLoop llm reg rc fuel
        (appendRaw msgs (llm msgs).raw ++
          l.map (fun tc => ⟨"user", PyContent.blocks [execCall reg rc tc]⟩))
        (calls + 1) := by
  cases l with
  | nil => exact absurd rfl hne
  | cons a r =>
    simp only [runLoop, ht, Option.getD_some, pyFalsyOptList, Bool.false_eq_true, if_false]
    rw [addToolResults_eq]
    · rw [List.map_map]
      rfl
    · intro b hb
      rcases List.mem_map.mp hb with ⟨tc, _, rfl⟩
      exact execCall_isToolResult reg rc tc

theorem runLoop_calls_le {Input : Type} (llm : List (Message Input) → LLMResponse Input)
    (reg : Registry Input) (rc : ToolCall Input → String) (fuel : Nat)
    (msgs : List (Message Input)) (calls : Nat) :
    (runLoop llm reg rc fuel msgs calls).2.2 ≤ calls + fuel := by
  induction fuel generalizing msgs calls with
  | zero => simp [runLoop]
  | succ n ih =>
    simp only [runLoop]
    split
    · simp only
      omega
    · exact (ih _ _).trans (by omega)

theorem runLoop_none_of_always_tools {Input : Type}
    (llm : List (Message Input) → LLMResponse Input) (reg : Registry Input)
    (rc : ToolCall Input → String) (fuel : Nat) (msgs : List (Message Input))
    (calls : Nat) (hall : ∀ h, pyFalsyOptList (llm h).toolCalls = false) :
    (runLoop llm reg rc fuel msgs calls).1 = none := by
  induction fuel generalizing msgs calls with
  | zero => rfl
  | succ n ih =>
    simp only [runLoop, hall msgs, Bool.false_eq_true, if_false]
    exact ih _ _

/-- `process_message` in terms of the loop: the in-loop return value when
there is one, the cap sentinel otherwise. -/
theorem process_message_eq {Input : Type} (maxIter : Int)
    (llm : List (Message Input) → LLMResponse Input) (reg : Registry Input)
    (rc : ToolCall Input → String) (msgs : List (Message Input)) (ui : String) :
    process_message maxIter llm reg rc msgs ui =
      ⟨(runLoop llm reg rc maxIter.toNat (initialHistory msgs ui) 0).1.getD maxIterSentinel,
        (runLoop llm reg rc maxIter.toNat (initialHistory msgs ui) 0).2.1,
        (runLoop llm reg rc maxIter.toNat (initialHistory msgs ui) 0).2.2⟩ := by
  unfold process_message initialHistory
  rcases h : runLoop llm reg rc maxIter.toNat
      (_add_message msgs "user" (PyContent.blocks (format_user_text_message ui))) 0
    with ⟨o, m, c⟩
  cases o <;> simp [h]

theorem get_tool_contains {Input : Type} (r : Registry Input) (name : String)
    (t0 : Tool Input) (h : get_tool r name = some t0) :
    name ∈ r.map Prod.fst := by
  induction r with
  | nil => simp [get_tool] at h
  | cons p rest ih =>
    rcases p with ⟨n, t⟩
    by_cases hn : n = name
    · simp [hn]
    · simp only [get_tool, if_neg hn] at h
      simp [ih h]

/-- C1: for every conversation and configured `max_tool_iterations`,
`process_message` performs at most `max_tool_iterations` adapter calls (the
iteration counter never exceeds the cap) and terminates; if every response
requests further tool calls, the fixed cap sentinel is returned. -/
theorem iteration_cap_bounds_adapter_calls {Input : Type} (maxIter : Int)
    (llm : List (Message Input) → LLMResponse Input) (reg : Registry Input)
    (rc : ToolCall Input → String) (msgs : List (Message Input)) (ui : String) :
    (process_message maxIter llm reg rc msgs ui).adapterCalls ≤ maxIter.toNat
    ∧ ((∀ h, pyFalsyOptList (llm h).toolCalls = false) →
        (process_message maxIter llm reg rc msgs ui).response = maxIterSentinel) := by
  rw [process_message_eq]
  constructor
  · simpa using runLoop_calls_le llm reg rc maxIter.toNat (initialHistory msgs ui) 0
  · intro hall
    simp [runLoop_none_of_always_tools llm reg rc maxIter.toNat (initialHistory msgs ui) 0 hall]

/-- A backend that always requests one more tool call, whatever the
history. -/
def alwaysToolLLM : List (Message Unit) → LLMResponse Unit :=
  fun _ =>
    ⟨none, some [⟨some "boom", some "t1", ()⟩],
      some ⟨"assistant", PyContent.blocks [CBlock.toolUse "t1" "boom" ()]⟩⟩

/-- A fixed rendering of a tool-call dict, standing for the f-string in the
malformed-call message. -/
def trivialRC : ToolCall Unit → String := fun _ => "tool_call_dict"

theorem iteration_cap_bounds_adapter_calls_witness :
    (process_message 2 alwaysToolLLM [] trivialRC [] "hi").adapterCalls ≤ (2 : Int).toNat
    ∧ (process_message 2 alwaysToolLLM [] trivialRC [] "hi").response = maxIterSentinel :=
  ⟨(iteration_cap_bounds_adapter_calls 2 alwaysToolLLM [] trivialRC [] "hi").1,
   (iteration_cap_bounds_adapter_calls 2 alwaysToolLLM [] trivialRC [] "hi").2
     (fun _ => rfl)⟩

/-- C3: registering a tool whose name is already present fails with the
duplicate-tool error, and the registry is unchanged afterwards: it still
maps that name to the previously registered tool, and no entry was added,
removed, or modified. -/
theorem duplicate_register_fails_and_preserves {Input : Type} (r : Registry Input)
    (t0 t : Tool Input) (h0 : get_tool r t.name = some t0) :
    register_tool r t =
        Except.error ("Tool with name '" ++ t.name ++ "' already registered.")
    ∧ registryAfterRegister r t = r
    ∧ get_tool (registryAfterRegister r t) t.name = some t0 := by
  have hc := get_tool_contains r t.name t0 h0
  have herr : register_tool r t =
      Except.error ("Tool with name '" ++ t.name ++ "' already registered.") := by
    simp [register_tool, hc]
  refine ⟨herr, ?_, ?_⟩
  · simp [registryAfterRegister, herr]
  · simp [registryAfterRegister, herr, h0]

/-- The first tool registered under the name `calc` in the duplicate
scenario. -/
def calcToolA : Tool Unit := ⟨"calc", "first calc tool", fun _ => Except.ok "4"⟩

/-- A second, different tool also named `calc`. -/
def calcToolB : Tool Unit := ⟨"calc", "second calc tool", fun _ => Except.ok "5"⟩

theorem duplicate_register_fails_and_preserves_witness :
    register_tool [("calc", calcToolA)] calcToolB =
        Except.error "Tool with name 'calc' already registered."
    ∧ registryAfterRegister [("calc", calcToolA)] calcToolB = [("calc", calcToolA)]
    ∧ get_tool (registryAfterRegister [("calc", calcToolA)] calcToolB) "calc" =
        some calcToolA :=
  duplicate_register_fails_and_preserves [("calc", calcToolA)] calcToolA calcToolB rfl

/-- C9: with `max_tool_iterations` ≤ 0, `process_message` still appends the
user's text message to the history but immediately returns the
maximum-iterations sentinel, with zero adapter calls (hence zero tool
executions). -/
theorem nonpositive_cap_returns_sentinel_immediately {Input : Type} (maxIter : Int)
    (llm : List (Message Input) → LLMResponse Input) (reg : Registry Input)
    (rc : ToolCall Input → String) (msgs : List (Message Input)) (ui : String)
    (hle : maxIter ≤ 0) :
    process_message maxIter llm reg rc msgs ui =
      ⟨maxIterSentinel, msgs ++ [⟨"user", PyContent.blocks [CBlock.text ui]⟩], 0⟩ := by
  rw [process_message_eq, Int.toNat_of_nonpos hle]
  simp [runLoop, initialHistory, _add_message, format_user_text_message]

theorem nonpositive_cap_returns_sentinel_immediately_witness :
    process_message (-3) alwaysToolLLM [] trivialRC [] "hello" =
      ⟨maxIterSentinel, [⟨"user", PyContent.blocks [CBlock.text "hello"]⟩], 0⟩ :=
  nonpositive_cap_returns_sentinel_immediately (-3) alwaysToolLLM [] trivialRC [] "hello"
    (by decide)

/-- C4: a registered tool whose execution raises is recovered locally into
an error `ToolResult` whose content carries the tool's name and the
exception's description; the exception does not propagate (`execCall` is
total) and the turn continues to the next adapter call. -/
theorem tool_exception_recovered_locally {Input : Type} (reg : Registry Input)
    (rc : ToolCall Input → String) (tc : ToolCall Input) (nm i e : String)
    (tool : Tool Input) (hnm : tc.name = some nm) (hnm2 : nm ≠ "")
    (hi : tc.id = some i) (hi2 : i ≠ "") (hreg : get_tool reg nm = some tool)
    (hexec : tool.execute tc.input = Except.error e)
    (llm : List (Message Input) → LLMResponse Input) (fuel calls : Nat)
    (msgs : List (Message Input)) (l : List (ToolCall Input))
    (hresp : (llm msgs).toolCalls = some l) (hmem : tc ∈ l) :
    execCall reg rc tc =
      CBlock.toolResult i
        [CBlock.text ("Error executing tool '" ++ nm ++ "': " ++ e)] true
    ∧ runLoop llm reg rc (fuel + 1) msgs calls =
        runLoop llm reg rc fuel
          (appendRaw msgs (llm msgs).raw ++
            l.map (fun tc2 => ⟨"user", PyContent.blocks [execCall reg rc tc2]⟩))
          (calls + 1) := by
  constructor
  · simp [execCall, truthyStr, hnm, hi, hnm2, hi2, hreg, hexec,
      format_tool_result_message]
  · exact runLoop_step_tools llm reg rc fuel msgs calls l hresp
      (List.ne_nil_of_mem hmem)

/-- A tool whose implementation always raises. -/
def boomTool : Tool Unit := ⟨"boom", "always fails", fun _ => Except.error "boom failed"⟩

theorem tool_exception_recovered_locally_witness :
    execCall [("boom", boomTool)] trivialRC ⟨some "boom", some "t1", ()⟩ =
      CBlock.toolResult "t1"
        [CBlock.text "Error executing tool 'boom': boom failed"] true
    ∧ runLoop alwaysToolLLM [("boom", boomTool)] trivialRC 1 [] 0 =
        runLoop alwaysToolLLM [("boom", boomTool)] trivialRC 0
          [⟨"assistant", PyContent.blocks [CBlock.toolUse "t1" "boom" ()]⟩,
            ⟨"user", PyContent.blocks
              [CBlock.toolResult "t1"
                [CBlock.text "Error executing tool 'boom': boom failed"] true]⟩]
          1 :=
  tool_exception_recovered_locally [("boom", boomTool)] trivialRC
    ⟨some "boom", some "t1", ()⟩ "boom" "t1" "boom failed" boomTool rfl (by decide)
    rfl (by decide) rfl rfl alwaysToolLLM 0 0 [] [⟨some "boom", some "t1", ()⟩]
    rfl (List.mem_singleton.mpr rfl)

/-- C5: a call naming an unregistered tool yields an error `ToolResult`
whose content mentions that the tool was not found, and a malformed call
(falsy name or id) yields an error `ToolResult` referencing the call's id
when it is truthy, else the placeholder `unknown_id`; neither raises, and
the turn continues. -/
theorem unknown_or_malformed_call_synthesizes_error {Input : Type}
    (reg : Registry Input) (rc : ToolCall Input → String) (tc tc2 : ToolCall Input)
    (nm i : String) (hnm : tc.name = some nm) (hnm2 : nm ≠ "") (hi : tc.id = some i)
    (hi2 : i ≠ "") (hreg : get_tool reg nm = none)
    (hmal : truthyStr tc2.name = false ∨ truthyStr tc2.id = false) :
    execCall reg rc tc =
      CBlock.toolResult i
        [CBlock.text ("Error: Tool '" ++ nm ++ "' not found.")] true
    ∧ execCall reg rc tc2 =
      CBlock.toolResult (pyOrStr tc2.id "unknown_id")
        [CBlock.text ("Error: Malformed tool call from LLM: " ++ rc tc2)] true
    ∧ (tc2.id = none → pyOrStr tc2.id "unknown_id" = "unknown_id")
    ∧ (∀ s, tc2.id = some s → s ≠ "" → pyOrStr tc2.id "unknown_id" = s) := by
  refine ⟨?_, ?_, ?_, ?_⟩
  · simp [execCall, truthyStr, hnm, hi, hnm2, hi2, hreg, format_tool_result_message]
  · rcases hmal with hm | hm <;>
      simp [execCall, hm, format_tool_result_message]
  · intro hcase
    simp [pyOrStr, hcase]
  · intro s hcase hs
    simp [pyOrStr, hcase, hs]

theorem unknown_or_malformed_call_synthesizes_error_witness :
    execCall ([] : Registry Unit) trivialRC ⟨some "foo", some "t9", ()⟩ =
      CBlock.toolResult "t9" [CBlock.text "Error: Tool 'foo' not found."] true
    ∧ execCall ([] : Registry Unit) trivialRC ⟨none, some "t2", ()⟩ =
      CBlock.toolResult "t2"
        [CBlock.text "Error: Malformed tool call from LLM: tool_call_dict"] true :=
  ⟨(unknown_or_malformed_call_synthesizes_error [] trivialRC
      ⟨some "foo", some "t9", ()⟩ ⟨none, some "t2", ()⟩ "foo" "t9" rfl (by decide)
      rfl (by decide) rfl (Or.inl rfl)).1,
   (unknown_or_malformed_call_synthesizes_error [] trivialRC
      ⟨some "foo", some "t9", ()⟩ ⟨none, some "t2", ()⟩ "foo" "t9" rfl (by decide)
      rfl (by decide) rfl (Or.inl rfl)).2.1⟩

/-- C2: for every nonempty list of tool calls returned by one adapter call,
the synthesized tool results are appended as one batch before the next
adapter call, in the order the calls were emitted; positionally, each
result's `tool_use_id` is the corresponding call's id (or the placeholder),
and when the call ids are distinct, each call is matched by exactly one
result. -/
theorem tool_results_batched_and_paired {Input : Type}
    (llm : List (Message Input) → LLMResponse Input) (reg : Registry Input)
    (rc : ToolCall Input → String) (fuel : Nat) (msgs : List (Message Input))
    (calls : Nat) (l : List (ToolCall Input))
    (ht : (llm msgs).toolCalls = some l) (hne : l ≠ []) :
    runLoop llm reg rc (fuel + 1) msgs calls =
      runLoop llm reg rc fuel
        (appendRaw msgs (llm msgs).raw ++
          l.map (fun tc => ⟨"user", PyContent.blocks [execCall reg rc tc]⟩))
        (calls + 1)
    ∧ l.map (fun tc => resultTuid (execCall reg rc tc)) =
        l.map (fun tc => pyOrStr tc.id "unknown_id")
    ∧ ((l.map (fun tc => pyOrStr tc.id "unknown_id")).Nodup →
        ∀ tc0 ∈ l,
          (l.map (fun tc => execCall reg rc tc)).countP
            (fun b => resultTuid b == pyOrStr tc0.id "unknown_id") = 1) := by
  refine ⟨runLoop_step_tools llm reg rc fuel msgs calls l ht hne, ?_, ?_⟩
  · exact List.map_congr_left (fun tc _ => execCall_resultTuid reg rc tc)
  · intro hnd tc0 h0
    rw [List.countP_map]
    have hcg : l.countP
          ((fun b => resultTuid b == pyOrStr tc0.id "unknown_id") ∘ execCall reg rc) =
        l.countP (fun tc => pyOrStr tc.id "unknown_id" == pyOrStr tc0.id "unknown_id") := by
      refine List.countP_congr (fun tc _ => ?_)
      simp [Function.comp, execCall_resultTuid]
    rw [hcg]
    have hcnt : l.countP
          (fun tc => pyOrStr tc.id "unknown_id" == pyOrStr tc0.id "unknown_id") =
        (l.map (fun tc => pyOrStr tc.id "unknown_id")).count (pyOrStr tc0.id "unknown_id") := by
      rw [List.count_eq_countP, List.countP_map]
      rfl
    rw [hcnt]
    exact List.count_eq_one_of_mem hnd
      (List.mem_map_of_mem (fun tc => pyOrStr tc.id "unknown_id") h0)

/-- A backend response carrying two tool calls with distinct ids, one for a
registered-but-failing tool and one for an unregistered tool. -/
def twoCallLLM : List (Message Unit) → LLMResponse Unit :=
  fun _ =>
    ⟨none, some [⟨some "boom", some "t1", ()⟩, ⟨some "missing", some "t2", ()⟩],
      some ⟨"assistant", PyContent.blocks
        [CBlock.toolUse "t1" "boom" (), CBlock.toolUse "t2" "missing" ()]⟩⟩

theorem tool_results_batched_and_paired_witness :
    ([⟨some "boom", some "t1", ()⟩, ⟨some "missing", some "t2", ()⟩] :
        List (ToolCall Unit)).map
        (fun tc => resultTuid (execCall [("boom", boomTool)] trivialRC tc)) =
      ["t1", "t2"]
    ∧ (([⟨some "boom", some "t1", ()⟩, ⟨some "missing", some "t2", ()⟩] :
        List (ToolCall Unit)).map
        (fun tc => execCall [("boom", boomTool)] trivialRC tc)).countP
        (fun b => resultTuid b == "t1") = 1 :=
  ⟨(tool_results_batched_and_paired twoCallLLM [("boom", boomTool)] trivialRC 0 [] 0
      [⟨some "boom", some "t1", ()⟩, ⟨some "missing", some "t2", ()⟩] rfl
      (List.cons_ne_nil _ _)).2.1,
   (tool_results_batched_and_paired twoCallLLM [("boom", boomTool)] trivialRC 0 [] 0
      [⟨some "boom", some "t1", ()⟩, ⟨some "missing", some "t2", ()⟩] rfl
      (List.cons_ne_nil _ _)).2.2 (by decide)
      ⟨some "boom", some "t1", ()⟩ (List.mem_cons_self _ _)⟩

/-- C7: whenever the adapter returns a raw assistant message, the agent
appends it to the history verbatim, whether or not the response also carries
tool calls; on the adapter side, the raw assistant message is the backend's
content blocks in emitted order, unmodified. -/
theorem raw_assistant_message_appended_verbatim {Input : Type}
    (llm : List (Message Input) → LLMResponse Input) (reg : Registry Input)
    (rc : ToolCall Input → String) (fuel : Nat) (msgs : List (Message Input))
    (calls : Nat) (m : Message Input) (blocks : List (RawBlock Input))
    (hraw : (llm msgs).raw = some m) :
    (chat_completion_response blocks).raw =
      some ⟨"assistant", PyContent.blocks (blocks.map rawToCBlock)⟩
    ∧ (pyFalsyOptList (llm msgs).toolCalls = true →
        runLoop llm reg rc (fuel + 1) msgs calls =
          (some (pyOrStr (llm msgs).text noResponseSentinel), msgs ++ [m], calls + 1))
    ∧ (∀ l, (llm msgs).toolCalls = some l → l ≠ [] →
        runLoop llm reg rc (fuel + 1) msgs calls =
          runLoop llm reg rc fuel
            ((msgs ++ [m]) ++
              l.map (fun tc => ⟨"user", PyContent.blocks [execCall reg rc tc]⟩))
            (calls + 1)) := by
  refine ⟨rfl, ?_, ?_⟩
  · intro hft
    rw [runLoop_step_notools llm reg rc fuel msgs calls hft]
    simp [appendRaw, hraw]
  · intro l htc hne
    rw [runLoop_step_tools llm reg rc fuel msgs calls l htc hne]
    simp [appendRaw, hraw]

/-- A backend response with text only, no tool calls. -/
def textOnlyLLM : List (Message Unit) → LLMResponse Unit :=
  fun _ => ⟨some "4", none, some ⟨"assistant", PyContent.blocks [CBlock.text "4"]⟩⟩

theorem raw_assistant_message_appended_verbatim_witness :
    (chat_completion_response ([RawBlock.text "4"] : List (RawBlock Unit))).raw =
      some ⟨"assistant", PyContent.blocks [CBlock.text "4"]⟩
    ∧ runLoop textOnlyLLM [] trivialRC 1 [] 0 =
        (some "4", [⟨"assistant", PyContent.blocks [CBlock.text "4"]⟩], 1) :=
  ⟨(raw_assistant_message_appended_verbatim textOnlyLLM [] trivialRC 0 [] 0
      ⟨"assistant", PyContent.blocks [CBlock.text "4"]⟩ [RawBlock.text "4"] rfl).1,
   (raw_assistant_message_appended_verbatim textOnlyLLM [] trivialRC 0 [] 0
      ⟨"assistant", PyContent.blocks [CBlock.text "4"]⟩ [RawBlock.text "4"] rfl).2.1 rfl⟩

/-- C8: a tool-result block handed to `_add_message` is always wrapped in a
message of role `"user"` (whatever role argument was passed, never
`"assistant"`), its content the singleton list holding that block; every
message the result-appending phase adds to the history has role `"user"` and
singleton tool-result content. -/
theorem tool_result_messages_have_user_role {Input : Type}
    (msgs : List (Message Input)) (role tuid : String) (c : List (CBlock Input))
    (e : Bool) (results : List (CBlock Input))
    (hall : ∀ b ∈ results, isToolResult b = true) :
    _add_message msgs role (PyContent.block (CBlock.toolResult tuid c e)) =
      msgs ++ [⟨"user", PyContent.blocks [CBlock.toolResult tuid c e]⟩]
    ∧ ∀ m ∈ addToolResults msgs results,
        m ∈ msgs ∨ (m.role = "user" ∧ ∃ b ∈ results, m.content = PyContent.blocks [b]) := by
  refine ⟨rfl, ?_⟩
  rw [addToolResults_eq results msgs hall]
  intro m hm
  rcases List.mem_append.mp hm with h | h
  · exact Or.inl h
  · right
    rcases List.mem_map.mp h with ⟨b, hb, rfl⟩
    exact ⟨rfl, b, hb, rfl⟩

theorem tool_result_messages_have_user_role_witness :
    _add_message ([] : List (Message Unit)) "assistant"
        (PyContent.block (CBlock.toolResult "t1" [CBlock.text "4"] false)) =
      [⟨"user", PyContent.blocks [CBlock.toolResult "t1" [CBlock.text "4"] false]⟩] :=
  (tool_result_messages_have_user_role [] "assistant" "t1" [CBlock.text "4"] false
      [CBlock.toolResult "t1" [CBlock.text "4"] false]
      (by simp [isToolResult])).1

/-- C10: a response with N tool calls makes the loop append N separate
user-role messages, one per call in order, each holding exactly one
tool-result block — never one combined message. -/
theorem n_calls_give_n_singleton_user_messages {Input : Type}
    (llm : List (Message Input) → LLMResponse Input) (reg : Registry Input)
    (rc : ToolCall Input → String) (fuel : Nat) (msgs : List (Message Input))
    (calls : Nat) (l : List (ToolCall Input))
    (ht : (llm msgs).toolCalls = some l) (hne : l ≠ []) :
    runLoop llm reg rc (fuel + 1) msgs calls =
      runLoop llm reg rc fuel
        (appendRaw msgs (llm msgs).raw ++
          l.map (fun tc => ⟨"user", PyContent.blocks [execCall reg rc tc]⟩))
        (calls + 1)
    ∧ (l.map (fun tc =>
        (⟨"user", PyContent.blocks [execCall reg rc tc]⟩ : Message Input))).length =
        l.length
    ∧ ∀ m ∈ l.map (fun tc =>
        (⟨"user", PyContent.blocks [execCall reg rc tc]⟩ : Message Input)),
        m.role = "user" ∧ ∃ tc0 ∈ l, m.content = PyContent.blocks [execCall reg rc tc0] := by
  refine ⟨runLoop_step_tools llm reg rc fuel msgs calls l ht hne, by simp, ?_⟩
  intro m hm
  rcases List.mem_map.mp hm with ⟨tc0, h0, rfl⟩
  exact ⟨rfl, tc0, h0, rfl⟩

theorem n_calls_give_n_singleton_user_messages_witness :
    runLoop twoCallLLM [("boom", boomTool)] trivialRC 1 [] 0 =
      runLoop twoCallLLM [("boom", boomTool)] trivialRC 0
        [⟨"assistant", PyContent.blocks
            [CBlock.toolUse "t1" "boom" (), CBlock.toolUse "t2" "missing" ()]⟩,
          ⟨"user", PyContent.blocks
            [CBlock.toolResult "t1"
              [CBlock.text "Error executing tool 'boom': boom failed"] true]⟩,
          ⟨"user", PyContent.blocks
            [CBlock.toolResult "t2"
              [CBlock.text "Error: Tool 'missing' not found."] true]⟩]
        1
    ∧ (([⟨some "boom", some "t1", ()⟩, ⟨some "missing", some "t2", ()⟩] :
        List (ToolCall Unit)).map
        (fun tc => (⟨"user", PyContent.blocks [execCall [("boom", boomTool)] trivialRC tc]⟩ :
          Message Unit))).length = 2 :=
  ⟨(n_calls_give_n_singleton_user_messages twoCallLLM [("boom", boomTool)] trivialRC
      0 [] 0 [⟨some "boom", some "t1", ()⟩, ⟨some "missing", some "t2", ()⟩] rfl
      (List.cons_ne_nil _ _)).1,
   (n_calls_give_n_singleton_user_messages twoCallLLM [("boom", boomTool)] trivialRC
      0 [] 0 [⟨some "boom", some "t1", ()⟩, ⟨some "missing", some "t2", ()⟩] rfl
      (List.cons_ne_nil _ _)).2.1⟩

theorem string_eq_empty_of_length_zero (s : String) (h : s.length = 0) : s = "" := by
  cases s with
  | mk data =>
    have hd : data = [] := List.length_eq_zero.mp h
    simp [hd]

theorem string_append_eq_empty (s t : String) (h : s ++ t = "") : s = "" ∧ t = "" := by
  have h1 : s.length + t.length = 0 := by
    rw [← String.length_append, h]
    rfl
  exact ⟨string_eq_empty_of_length_zero s (by omega),
    string_eq_empty_of_length_zero t (by omega)⟩

theorem concatTexts_eq_empty_iff {Input : Type} (blocks : List (RawBlock Input)) :
    concatTexts blocks = "" ↔ ∀ t, RawBlock.text t ∈ blocks → t = "" := by
  induction blocks with
  | nil => simp [concatTexts]
  | cons b rest ih =>
    cases b with
    | text t =>
      simp only [concatTexts]
      constructor
      · intro h t0 ht0
        obtain ⟨h1, h2⟩ := string_append_eq_empty _ _ h
        rcases List.mem_cons.mp ht0 with heq | hmem
        · injection heq with he
          rw [he]
          exact h1
        · exact (ih.mp h2) t0 hmem
      · intro hall
        have h1 : t = "" := hall t (List.mem_cons_self _ _)
        have h2 : concatTexts rest = "" :=
          ih.mpr (fun t0 ht0 => hall t0 (List.mem_cons_of_mem _ ht0))
        rw [h1, h2]
        rfl
    | tool_use i n inp =>
      simp only [concatTexts]
      rw [ih]
      constructor
      · intro hall t0 ht0
        rcases List.mem_cons.mp ht0 with heq | hmem
        · cases heq
        · exact hall t0 hmem
      · intro hall t0 ht0
        exact hall t0 (List.mem_cons_of_mem _ ht0)

/-- C6: the adapter returns the concatenation of all text blocks as the text
answer, surfacing it as absent exactly when the response has no nonempty
text block; and when the response carries no tool calls, `process_message`
returns that text answer after a single adapter call, or the fixed fallback
sentinel when the text is absent. -/
theorem text_blocks_concatenated_or_absent {Input : Type}
    (blocks : List (RawBlock Input))
    (backend : List (Message Input) → List (RawBlock Input)) (maxIter : Int)
    (reg : Registry Input) (rc : ToolCall Input → String)
    (msgs : List (Message Input)) (ui : String) (hpos : 0 < maxIter)
    (hnt : extractToolCalls (backend (initialHistory msgs ui)) = []) :
    ((chat_completion_response blocks).text = none ↔
      ∀ t, RawBlock.text t ∈ blocks → t = "")
    ∧ ((chat_completion_response blocks).text = none
        ∨ (chat_completion_response blocks).text = some (concatTexts blocks))
    ∧ (process_message maxIter (fun h => chat_completion_response (backend h)) reg rc
        msgs ui).response =
        pyOrStr (chat_completion_response (backend (initialHistory msgs ui))).text
          noResponseSentinel
    ∧ (process_message maxIter (fun h => chat_completion_response (backend h)) reg rc
        msgs ui).adapterCalls = 1 := by
  have htext : (chat_completion_response blocks).text =
      if concatTexts blocks = "" then none else some (concatTexts blocks) := rfl
  have hfalsy : pyFalsyOptList
      (chat_completion_response (backend (initialHistory msgs ui))).toolCalls = true := by
    simp [chat_completion_response, hnt, pyFalsyOptList]
  obtain ⟨n, hn⟩ : ∃ n, maxIter.toNat = n + 1 := by
    have hlt : 0 < maxIter.toNat := by omega
    exact ⟨maxIter.toNat - 1, by omega⟩
  have hstep := runLoop_step_notools (fun h => chat_completion_response (backend h))
      reg rc n (initialHistory msgs ui) 0 hfalsy
  refine ⟨?_, ?_, ?_, ?_⟩
  · rw [htext]
    constructor
    · intro h
      by_cases hc : concatTexts blocks = ""
      · exact (concatTexts_eq_empty_iff blocks).mp hc
      · simp [hc] at h
    · intro hall
      rw [if_pos ((concatTexts_eq_empty_iff blocks).mpr hall)]
  · rw [htext]
    by_cases hc : concatTexts blocks = "" <;> simp [hc]
  · rw [process_message_eq, hn, hstep]
    rfl
  · rw [process_message_eq, hn, hstep]

/-- A backend answering every request with the single text block `"4"`. -/
def fourBackend : List (Message Unit) → List (RawBlock Unit) := fun _ => [RawBlock.text "4"]

theorem text_blocks_concatenated_or_absent_witness :
    ((chat_completion_response ([RawBlock.text "4"] : List (RawBlock Unit))).text = none
      ∨ (chat_completion_response ([RawBlock.text "4"] : List (RawBlock Unit))).text =
          some (concatTexts ([RawBlock.text "4"] : List (RawBlock Unit))))
    ∧ (process_message 5 (fun h => chat_completion_response (fourBackend h)) [] trivialRC
        [] "what is 2+2").response = "4"
    ∧ (process_message 5 (fun h => chat_completion_response (fourBackend h)) [] trivialRC
        [] "what is 2+2").adapterCalls = 1 :=
  ⟨(text_blocks_concatenated_or_absent [RawBlock.text "4"] fourBackend 5 [] trivialRC
      [] "what is 2+2" (by decide) rfl).2.1,
   (text_blocks_concatenated_or_absent [RawBlock.text "4"] fourBackend 5 [] trivialRC
      [] "what is 2+2" (by decide) rfl).2.2.1,
   (text_blocks_concatenated_or_absent [RawBlock.text "4"] fourBackend 5 [] trivialRC
      [] "what is 2+2" (by decide) rfl).2.2.2⟩
